import Mathlib

/-!
Verification of the natural-language reminder time resolver of the notes
application (`src/services/soundService.ts`: `parseReminderTime` and
`extractTimeFromText`).

Modelling conventions:
* A point in time is an `Int`: milliseconds since the epoch, in the device's
  local timezone with a fixed offset (the source does all arithmetic through
  the JS `Date` API in local time; daylight-saving shifts and the finite
  `Date` range are outside the model).  `JsDate := Option Int` models a JS
  `Date`: `none` is an Invalid Date (a date whose internal value is `NaN`,
  which the source produces when `setHours` receives a `NaN` minutes value).
* Strings are processed as `List Char`.  The source lowercases its input, so
  matching is done on the lowercased text; `Char.toLower` (ASCII) models
  `String.toLowerCase` on the relevant inputs.
* The three clock-time regexes of `extractTime`, and the two `in (\d+)
  hours?/minutes?` regexes of `parseReminderTime`, are transcribed as direct
  scanners that reproduce the JS leftmost-match and greedy-with-backtracking
  behaviour of those specific patterns.  The ordered pattern table of
  `extractTimeFromText` is transcribed into a small regex syntax interpreted
  by a backtracking matcher with JS priority order (leftmost position first;
  within a position, left alternative first, greedy repetition longest
  first).
-/

/-! ## Time arithmetic (JS `Date` in a fixed-offset local timezone) -/

def msPerMinute : Int := 60000

def msPerHour : Int := 3600000

def msPerDay : Int := 86400000

/-- Calendar day number of a time value (days since the epoch).  Lean's `Int`
division is Euclidean, which for the positive divisor `msPerDay` is floor
division, matching the local-calendar day of a JS `Date`. -/
def dayOf (t : Int) : Int := t / msPerDay

/-- `Date.prototype.getDay`: day of week, 0 = Sunday.  Day 0 of the epoch
(1970-01-01) was a Thursday (`getDay = 4`). -/
def getDay (t : Int) : Int := (dayOf t + 4) % 7

/-- The time value of calendar day `q` at `h` hours and `m` minutes.  This is
what `setHours(h, m, 0, 0)` produces on a date lying on day `q`; JS rolls
hour values `≥ 24` into later days, which the plain arithmetic reproduces. -/
def dateAt (q : Int) (h m : Nat) : Int :=
  q * msPerDay + (h : Int) * msPerHour + (m : Int) * msPerMinute

/-- Days since the epoch of a civil date (Gregorian calendar); standard
`days_from_civil` algorithm, used only for nonnegative inputs. -/
def daysFromCivil (y m d : Int) : Int :=
  let y' := if m ≤ 2 then y - 1 else y
  let era := (if 0 ≤ y' then y' else y' - 399) / 400
  let yoe := y' - era * 400
  let mp := (m + 9) % 12
  let doy := (153 * mp + 2) / 5 + d - 1
  let doe := yoe * 365 + yoe / 4 - yoe / 100 + doy
  era * 146097 + doe - 719468

/-- Local time value (ms) of a civil date at `h:mi`. -/
def dtMs (y m d h mi : Int) : Int :=
  daysFromCivil y m d * msPerDay + h * msPerHour + mi * msPerMinute

/-! ## String utilities (JS semantics) -/

def isSpaceC (c : Char) : Bool :=
  c == ' ' || c == '\t' || c == '\n' || c == '\r'

def isDigitC (c : Char) : Bool := '0' ≤ c && c ≤ '9'

def digitVal (c : Char) : Nat := c.toNat - 48

/-- `needle` occurs at the start of the list. -/
def startsWithL : List Char → List Char → Bool
  | [], _ => true
  | _ :: _, [] => false
  | a :: as, b :: bs => a == b && startsWithL as bs

/-- `String.prototype.includes`: plain substring containment. -/
def containsL (hay needle : List Char) : Bool :=
  match hay with
  | [] => startsWithL needle []
  | c :: rest => startsWithL needle (c :: rest) || containsL rest needle

/-- `String.prototype.trim` (whitespace at both ends). -/
def trimL (s : List Char) : List Char :=
  ((s.dropWhile isSpaceC).reverse.dropWhile isSpaceC).reverse

/-- `timeString.toLowerCase().trim()` as performed by `parseReminderTime`. -/
def normalizeInput (s : String) : List Char :=
  trimL (s.toList.map Char.toLower)

/-- Replace the first occurrence of `pat` (JS `String.prototype.replace` with
a string pattern). -/
def replaceFirstL (s pat rep : List Char) : List Char :=
  match s with
  | [] => if startsWithL pat [] then rep else []
  | c :: rest =>
    if startsWithL pat (c :: rest) then rep ++ List.drop pat.length (c :: rest)
    else c :: replaceFirstL rest pat rep

def replaceFirst (s pat rep : String) : String :=
  String.mk (replaceFirstL s.toList pat.toList rep.toList)

def capitalizeFirst (s : String) : String :=
  match s.toList with
  | [] => ""
  | c :: rest => String.mk (c.toUpper :: rest)

/-! ## The clock-time extraction of `parseReminderTime` (`extractTime`)

The source tries, in order, the regexes
`(\d{1,2}):(\d{2})\s*(am|pm)`, `(\d{1,2})\s*(am|pm)`, `(\d{1,2}):(\d{2})`
on the lowercased input and converts the first match:

```
let hours = parseInt(match[1]);
const minutes = match[2] ? parseInt(match[2]) : 0;
const period = match[3]?.toLowerCase();
if (period === 'pm' && hours < 12) hours += 12;
if (period === 'am' && hours === 12) hours = 0;
```

For the second pattern `match[2]` is the string `"am"`/`"pm"`, so
`parseInt(match[2])` is `NaN` (modelled as `minutes = none`) and `match[3]`
is `undefined`, so no am/pm conversion happens.  -/

/-- Hours and minutes as produced by `extractTime`; `minutes = none` models a
`NaN` minutes value. -/
structure JsTime where
  hours : Nat
  minutes : Option Nat
deriving DecidableEq, Repr

def skipSpacesL : List Char → List Char
  | [] => []
  | c :: rest => if isSpaceC c then skipSpacesL rest else c :: rest

/-- Parse `:` followed by exactly two digits (the `(:\d{2})` part). -/
def afterColonMM : List Char → Option (Nat × List Char)
  | ':' :: a :: b :: rest =>
    if isDigitC a && isDigitC b then some (10 * digitVal a + digitVal b, rest)
    else none
  | _ => none

/-- `\s*(am|pm)`: skip spaces greedily, then read `am`/`pm` (returns
`true` for pm).  Greedy space munching is exact here because a leftover
space can never match `a`/`p`. -/
def ampmAfterSpaces (s : List Char) : Option Bool :=
  match skipSpacesL s with
  | 'a' :: 'm' :: _ => some false
  | 'p' :: 'm' :: _ => some true
  | _ => none

/-- Try `(\d{1,2}):(\d{2})\s*(am|pm)` anchored at the head: greedy two-digit
hour first, backtracking to one digit. -/
def tryP1At (s : List Char) : Option (Nat × Nat × Bool) :=
  match s with
  | [] => none
  | a :: rest =>
    if isDigitC a then
      let one : Option (Nat × Nat × Bool) :=
        match afterColonMM rest with
        | some (m, r2) =>
          match ampmAfterSpaces r2 with
          | some pm => some (digitVal a, m, pm)
          | none => none
        | none => none
      match rest with
      | b :: rest2 =>
        if isDigitC b then
          match afterColonMM rest2 with
          | some (m, r2) =>
            match ampmAfterSpaces r2 with
            | some pm => some (10 * digitVal a + digitVal b, m, pm)
            | none => one
          | none => one
        else one
      | [] => one
    else none

/-- Try `(\d{1,2})\s*(am|pm)` anchored at the head. -/
def tryP2At (s : List Char) : Option (Nat × Bool) :=
  match s with
  | [] => none
  | a :: rest =>
    if isDigitC a then
      let one : Option (Nat × Bool) :=
        match ampmAfterSpaces rest with
        | some pm => some (digitVal a, pm)
        | none => none
      match rest with
      | b :: rest2 =>
        if isDigitC b then
          match ampmAfterSpaces rest2 with
          | some pm => some (10 * digitVal a + digitVal b, pm)
          | none => one
        else one
      | [] => one
    else none

/-- Try `(\d{1,2}):(\d{2})` anchored at the head. -/
def tryP3At (s : List Char) : Option (Nat × Nat) :=
  match s with
  | [] => none
  | a :: rest =>
    if isDigitC a then
      let one : Option (Nat × Nat) :=
        match afterColonMM rest with
        | some (m, _) => some (digitVal a, m)
        | none => none
      match rest with
      | b :: rest2 =>
        if isDigitC b then
          match afterColonMM rest2 with
          | some (m, _) => some (10 * digitVal a + digitVal b, m)
          | none => one
        else one
      | [] => one
    else none

/-- Leftmost match of pattern 1 over the whole string. -/
def scanP1 : List Char → Option (Nat × Nat × Bool)
  | [] => none
  | c :: rest =>
    match tryP1At (c :: rest) with
    | some r => some r
    | none => scanP1 rest

def scanP2 : List Char → Option (Nat × Bool)
  | [] => none
  | c :: rest =>
    match tryP2At (c :: rest) with
    | some r => some r
    | none => scanP2 rest

def scanP3 : List Char → Option (Nat × Nat)
  | [] => none
  | c :: rest =>
    match tryP3At (c :: rest) with
    | some r => some r
    | none => scanP3 rest

/-- The `extractTime` helper of `parseReminderTime`. -/
def extractTime (s : List Char) : Option JsTime :=
  match scanP1 s with
  | some (h, m, pm) =>
    -- pattern 1: match[2] = minute digits, match[3] = am/pm
    let h1 := if pm && decide (h < 12) then h + 12 else h
    let h2 := if !pm && decide (h1 = 12) then 0 else h1
    some ⟨h2, some m⟩
  | none =>
    match scanP2 s with
    | some (h, _) =>
      -- pattern 2: match[2] = "am"/"pm" (truthy), so minutes = parseInt("pm")
      -- = NaN, and match[3] is undefined, so hours are left unadjusted
      some ⟨h, none⟩
    | none =>
      match scanP3 s with
      | some (h, m) =>
        -- pattern 3: match[2] = minute digits, match[3] undefined
        some ⟨h, some m⟩
      | none => none

/-! ## The `in (\d+) hours?` / `in (\d+) minutes?` regexes -/

/-- Split off the maximal digit run at the head. -/
def digitRun : List Char → List Char × List Char
  | [] => ([], [])
  | c :: rest =>
    if isDigitC c then
      let p := digitRun rest
      (c :: p.1, p.2)
    else ([], c :: rest)

/-- Read a maximal nonempty digit run (the greedy `(\d+)`), returning its
`parseInt` value and the rest of the input. -/
def readDigits (s : List Char) : Option (Nat × List Char) :=
  match digitRun s with
  | ([], _) => none
  | (ds, r) => some (ds.foldl (fun acc c => 10 * acc + digitVal c) 0, r)

/-- Try `in (\d+) <unit>` anchored at the head (`unit` is `"hour"` or
`"minute"`; the regex's trailing `s?` needs no check).  Greedy `(\d+)` is
exact: giving back a digit would require it to match the literal space. -/
def tryInUnitAt (unit : List Char) (s : List Char) : Option Nat :=
  match s with
  | 'i' :: 'n' :: ' ' :: rest =>
    match readDigits rest with
    | some (n, ' ' :: rest2) => if startsWithL unit rest2 then some n else none
    | _ => none
  | _ => none

/-- Leftmost match of `in (\d+) <unit>`, returning the captured number. -/
def scanInUnit (unit : List Char) : List Char → Option Nat
  | [] => none
  | c :: rest =>
    match tryInUnitAt unit (c :: rest) with
    | some n => some n
    | none => scanInUnit unit rest

/-- `input.match(/in (\d+) hours?/)`, as the captured hour count. -/
def matchInNHours (input : List Char) : Option Nat :=
  scanInUnit "hour".toList input

/-- `input.match(/in (\d+) minutes?/)`, as the captured minute count. -/
def matchInNMinutes (input : List Char) : Option Nat :=
  scanInUnit "minute".toList input

/-! ## `parseReminderTime` -/

/-- The resolver's output (`ReminderInfo` in the source): `date = none`
models an Invalid Date. -/
structure ReminderInfo where
  date : Option Int
  displayText : String
  isValid : Bool
deriving DecidableEq, Repr

/-- The `daysOfWeek` table, in the source's insertion order (the order the
`for ... of Object.entries(daysOfWeek)` loops iterate in). -/
def daysOfWeek : List (String × Nat) :=
  [("sunday", 0), ("sun", 0),
   ("monday", 1), ("mon", 1),
   ("tuesday", 2), ("tue", 2), ("tues", 2),
   ("wednesday", 3), ("wed", 3),
   ("thursday", 4), ("thu", 4), ("thurs", 4),
   ("friday", 5), ("fri", 5),
   ("saturday", 6), ("sat", 6)]

/-- First table entry `day` with `input.includes("next " ++ day)`. -/
def findNextDay (input : List Char) : List (String × Nat) → Option (String × Nat)
  | [] => none
  | (d, n) :: rest =>
    if containsL input ("next " ++ d).toList then some (d, n)
    else findNextDay input rest

/-- First table entry `day` with `input.includes(day)`. -/
def findBareDay (input : List Char) : List (String × Nat) → Option (String × Nat)
  | [] => none
  | (d, n) :: rest =>
    if containsL input d.toList then some (d, n)
    else findBareDay input rest

/-- Days-ahead for a bare weekday: `(dayNum - now.getDay() + 7) % 7`, with 0
replaced by 7. -/
def bareOffset (now : Int) (dn : Nat) : Int :=
  let u := ((dn : Int) - getDay now + 7) % 7
  if u = 0 then 7 else u

/-- Days-ahead for `next <weekday>`: the bare offset plus another 7. -/
def nextOffset (now : Int) (dn : Nat) : Int := bareOffset now dn + 7

/-- Days-ahead for `this weekend`: `(6 - now.getDay() + 7) % 7 || 7`. -/
def wkOffset (now : Int) : Int :=
  let u := (6 - getDay now + 7) % 7
  if u = 0 then 7 else u

/-- `targetDate.setHours(time.hours, time.minutes, 0, 0)` where `targetDate`
lies on the calendar day of `t`: a `NaN` minutes value invalidates the
date. -/
def setHoursOnDay (t : Int) (time : JsTime) : Option Int :=
  match time.minutes with
  | some m => some (dateAt (dayOf t) time.hours m)
  | none => none

def fmtMinute2 (m : Nat) : String :=
  if m < 10 then "0" ++ toString m else toString m

/-- `toLocaleTimeString('en-US', { hour: 'numeric', minute: showMinutes ?
'2-digit' : undefined, hour12: true })` on a valid date. -/
def fmtClock (d : Int) (showMinutes : Bool) : String :=
  let md := d % msPerDay
  let h := (md / msPerHour).toNat
  let mi := ((md / msPerMinute) % 60).toNat
  let per := if h < 12 then "AM" else "PM"
  let h12 := if h % 12 = 0 then 12 else h % 12
  if showMinutes then toString h12 ++ ":" ++ fmtMinute2 mi ++ " " ++ per
  else toString h12 ++ " " ++ per

/-- The clock part of the label.  The source shows minutes iff
`time.minutes > 0` (`NaN > 0` is false, but then the date is invalid and
`toLocaleTimeString` renders `"Invalid Date"`). -/
def clockText (date : Option Int) (time : JsTime) : String :=
  match date with
  | none => "Invalid Date"
  | some d => fmtClock d (decide (0 < time.minutes.getD 0))

/-- Steps shared by every non-short-circuit branch: advance the date by `k`
days, apply the time of day, and build the label. -/
def finishResolve (now : Int) (time : JsTime) (k : Int) (label : String)
    (valid : Bool) : ReminderInfo :=
  let date := setHoursOnDay (now + k * msPerDay) time
  ⟨date, label ++ " at " ++ clockText date time, valid⟩

/-- The branch cascade of `parseReminderTime` (everything before the final
past-time rollover).  The four duration branches return `now + offset`
directly; in the source they `return` early, which is equivalent because the
rollover guard (`input` contains `today`/`tonight`) is false whenever one of
them ran.  A `next`/bare-weekday branch that finds no weekday leaves
`displayText` empty, which the source's `if (!displayText)` fallback then
turns into `+1 day / "Tomorrow" / isValid = false`; that net effect is
encoded directly. -/
def resolveCoreI (input : List Char) (now : Int) : ReminderInfo :=
  let time0 := (extractTime input).getD ⟨9, some 0⟩
  if containsL input "today".toList then
    finishResolve now time0 0 "Today" true
  else if containsL input "tonight".toList then
    -- Default to 8pm for "tonight": any hour below 18 becomes 20
    finishResolve now ⟨if time0.hours < 18 then 20 else time0.hours, time0.minutes⟩
      0 "Tonight" true
  else if containsL input "tomorrow".toList then
    finishResolve now time0 1 "Tomorrow" true
  else if containsL input "next week".toList then
    finishResolve now time0 7 "Next week" true
  else if containsL input "in an hour".toList || containsL input "in 1 hour".toList then
    ⟨some (now + msPerHour), "In 1 hour", true⟩
  else if containsL input "in 30 minutes".toList || containsL input "in half an hour".toList then
    ⟨some (now + 30 * msPerMinute), "In 30 minutes", true⟩
  else
    match matchInNHours input with
    | some n => ⟨some (now + (n : Int) * msPerHour),
        "In " ++ toString n ++ " hour" ++ (if 1 < n then "s" else ""), true⟩
    | none =>
      match matchInNMinutes input with
      | some n => ⟨some (now + (n : Int) * msPerMinute),
          "In " ++ toString n ++ " minute" ++ (if 1 < n then "s" else ""), true⟩
      | none =>
        if containsL input "this weekend".toList then
          finishResolve now time0 (wkOffset now) "This weekend" true
        else if containsL input "next".toList then
          match findNextDay input daysOfWeek with
          | some (dname, dn) =>
            finishResolve now time0 (nextOffset now dn)
              ("Next " ++ capitalizeFirst dname) true
          | none => finishResolve now time0 1 "Tomorrow" false
        else
          match findBareDay input daysOfWeek with
          | some (dname, dn) =>
            finishResolve now time0 (bareOffset now dn) (capitalizeFirst dname) true
          | none => finishResolve now time0 1 "Tomorrow" false

/-- The final `if (targetDate <= now)` rollover: only phrases containing
`today`/`tonight` are moved to the next day (an invalid date compares false
and is never moved). -/
def applyRollover (r : ReminderInfo) (input : List Char) (now : Int) : ReminderInfo :=
  match r.date with
  | some d =>
    if decide (d ≤ now) &&
        (containsL input "today".toList || containsL input "tonight".toList) then
      ⟨some (d + msPerDay),
       replaceFirst (replaceFirst r.displayText "Today" "Tomorrow") "Tonight" "Tomorrow",
       r.isValid⟩
    else r
  | none => r

/-- `parseReminderTime(timeString)` with the resolution moment `now` made
explicit (the source reads `new Date()` at the top of the call). -/
def parseReminderTime (timeString : String) (now : Int) : ReminderInfo :=
  let input := normalizeInput timeString
  applyRollover (resolveCoreI input now) input now


/-! ## The pattern table of `extractTimeFromText`

A small regex syntax covering exactly the constructs the source's
`timePatterns` use: literals, `\d`/`\s` repetitions with bounds,
sequencing, ordered alternation, greedy `?`, and the `\b` assertion.  The
matcher enumerates outcomes in JS priority order (left alternative first,
greedy repetition longest first, `?` match-first), so the head of the
result list is the JS match; the search tries positions left to right, so
the first position with a match wins, as with `String.prototype.match`.
The input is lowercased first (`const input = text.toLowerCase()`), which
makes the `/i` flags moot. -/

inductive CCls where
  | digit
  | space
deriving DecidableEq, Repr

def cclsF : CCls → Char → Bool
  | .digit => isDigitC
  | .space => isSpaceC

inductive RE where
  | lit : List Char → RE
  | rep : CCls → Nat → Option Nat → RE
  | seq : RE → RE → RE
  | alt : RE → RE → RE
  | opt : RE → RE
  | wb : RE
deriving Repr

/-- `[A-Za-z0-9_]`, the JS word characters for `\b`. -/
def isWordChar (c : Char) : Bool :=
  ('a' ≤ c && c ≤ 'z') || ('A' ≤ c && c ≤ 'Z') || ('0' ≤ c && c ≤ '9') || c == '_'

/-- Word boundary between the previous character (`none` at the string edge)
and the rest of the input. -/
def isBoundary (p : Option Char) (s : List Char) : Bool :=
  let pw := match p with
    | some c => isWordChar c
    | none => false
  let nw := match s with
    | c :: _ => isWordChar c
    | [] => false
  pw != nw

/-- Consume a literal; on success returns the new previous-character and the
rest. -/
def stripLit : List Char → Option Char → List Char → Option (Option Char × List Char)
  | [], p, s => some (p, s)
  | c :: cs, _, d :: ds => if c == d then stripLit cs (some d) ds else none
  | _ :: _, _, [] => none

/-- All states reachable by consuming a (possibly empty) run of class
characters, in ascending consumption order (index `k` = `k` consumed). -/
def runStates (f : Char → Bool) : Option Char → List Char → List (Option Char × List Char)
  | p, [] => [(p, [])]
  | p, c :: rest =>
    (p, c :: rest) :: (if f c then runStates f (some c) rest else [])

/-- States after a `{lo,hi}` class repetition, greedy order (most consumed
first); `hi = none` is unbounded. -/
def repCls (f : Char → Bool) (lo : Nat) (hi : Option Nat) (p : Option Char)
    (s : List Char) : List (Option Char × List Char) :=
  let sts := runStates f p s
  let top := match hi with
    | none => sts.length - 1
    | some h => min h (sts.length - 1)
  (((sts.take (top + 1)).drop lo)).reverse

/-- Backtracking matcher: every way the pattern can consume a prefix of `s`,
in JS priority order. -/
def reRun : RE → Option Char → List Char → List (Option Char × List Char)
  | .lit l, p, s =>
    match stripLit l p s with
    | some st => [st]
    | none => []
  | .rep cc lo hi, p, s => repCls (cclsF cc) lo hi p s
  | .seq a b, p, s => (reRun a p s).flatMap (fun st => reRun b st.1 st.2)
  | .alt a b, p, s => reRun a p s ++ reRun b p s
  | .opt a, p, s => reRun a p s ++ [(p, s)]
  | .wb, p, s => if isBoundary p s then [(p, s)] else []

/-- Length of the JS match of `r` anchored at the current position, if any. -/
def reFirstLen (r : RE) (p : Option Char) (s : List Char) : Option Nat :=
  (reRun r p s).head?.map (fun st => s.length - st.2.length)

/-- Leftmost match (`String.prototype.match` without `g`): the matched
substring `match[0]`. -/
def reSearchFrom (r : RE) (p : Option Char) (s : List Char) : Option (List Char) :=
  match reFirstLen r p s with
  | some n => some (s.take n)
  | none =>
    match s with
    | [] => none
    | c :: rest => reSearchFrom r (some c) rest

def reSearch (r : RE) (s : List Char) : Option (List Char) :=
  reSearchFrom r none s

def w (s : String) : RE := .lit s.toList

def rseq : List RE → RE
  | [] => .lit []
  | [r] => r
  | r :: rest => .seq r (rseq rest)

def ralts : List RE → RE
  | [] => .lit []
  | [r] => r
  | r :: rest => .alt r (ralts rest)

def sp1 : RE := .rep .space 1 none
def sp0 : RE := .rep .space 0 none
def dg (lo hi : Nat) : RE := .rep .digit lo (some hi)
def dgPlus : RE := .rep .digit 1 none

/-- An optional `s` at the end of a unit word (`minutes?` etc.). -/
def wOptS (s : String) : RE := rseq [w s, .opt (w "s")]

/-- The source's `timePatterns` array, in order. -/
def timePatterns : List RE :=
  [ -- /\bin\s+(\d+)\s*(minutes?|mins?|hours?|hrs?)\b/i
    rseq [.wb, w "in", sp1, dgPlus, sp0,
          ralts [wOptS "minute", wOptS "min", wOptS "hour", wOptS "hr"], .wb],
    -- /\bin\s+(an?|one)\s*(hour|minute)\b/i
    rseq [.wb, w "in", sp1, ralts [rseq [w "a", .opt (w "n")], w "one"], sp0,
          ralts [w "hour", w "minute"], .wb],
    -- /\bin\s+(half\s+an?\s+hour|30\s+minutes?)\b/i
    rseq [.wb, w "in", sp1,
          ralts [rseq [w "half", sp1, w "a", .opt (w "n"), sp1, w "hour"],
                 rseq [w "30", sp1, wOptS "minute"]], .wb],
    -- /\b(at|by|around)\s+(\d{1,2})(:\d{2})?\s*(am|pm)?\b/i
    rseq [.wb, ralts [w "at", w "by", w "around"], sp1, dg 1 2,
          .opt (rseq [w ":", dg 2 2]), sp0, .opt (ralts [w "am", w "pm"]), .wb],
    -- /\b(\d{1,2})(:\d{2})?\s*(am|pm)\b/i
    rseq [.wb, dg 1 2, .opt (rseq [w ":", dg 2 2]), sp0,
          ralts [w "am", w "pm"], .wb],
    -- /\b(today|tonight|tomorrow|this\s+evening|this\s+morning|this\s+afternoon)\b/i
    rseq [.wb, ralts [w "today", w "tonight", w "tomorrow",
                      rseq [w "this", sp1, w "evening"],
                      rseq [w "this", sp1, w "morning"],
                      rseq [w "this", sp1, w "afternoon"]], .wb],
    -- /\b(this\s+weekend|next\s+week|next\s+month)\b/i
    rseq [.wb, ralts [rseq [w "this", sp1, w "weekend"],
                      rseq [w "next", sp1, w "week"],
                      rseq [w "next", sp1, w "month"]], .wb],
    -- /\b(next\s+)?(monday|tuesday|wednesday|thursday|friday|saturday|sunday)\b/i
    rseq [.wb, .opt (rseq [w "next", sp1]),
          ralts [w "monday", w "tuesday", w "wednesday", w "thursday",
                 w "friday", w "saturday", w "sunday"], .wb],
    -- /\b(on\s+)?(mon|tue|tues|wed|thu|thurs|fri|sat|sun)\b/i
    rseq [.wb, .opt (rseq [w "on", sp1]),
          ralts [w "mon", w "tue", w "tues", w "wed", w "thu", w "thurs",
                 w "fri", w "sat", w "sun"], .wb],
    -- /\b(on\s+)?(the\s+)?(\d{1,2})(st|nd|rd|th)?\b/i
    rseq [.wb, .opt (rseq [w "on", sp1]), .opt (rseq [w "the", sp1]), dg 1 2,
          .opt (ralts [w "st", w "nd", w "rd", w "th"]), .wb],
    -- /\b(january|...|december)\s+\d{1,2}\b/i
    rseq [.wb, ralts [w "january", w "february", w "march", w "april", w "may",
                      w "june", w "july", w "august", w "september",
                      w "october", w "november", w "december"],
          sp1, dg 1 2, .wb],
    -- /\b(morning|afternoon|evening|night)\b/i
    rseq [.wb, ralts [w "morning", w "afternoon", w "evening", w "night"], .wb],
    -- /\b(by\s+end\s+of\s+(day|week|month))\b/i
    rseq [.wb, w "by", sp1, w "end", sp1, w "of", sp1,
          ralts [w "day", w "week", w "month"], .wb],
    -- /\b(before|until|due)\s+/i
    rseq [.wb, ralts [w "before", w "until", w "due"], sp1] ]

/-- The first pattern in the table with a match, and that match. -/
def firstPatternMatch : List RE → List Char → Option (List Char)
  | [], _ => none
  | r :: rs, s =>
    match reSearch r s with
    | some m => some m
    | none => firstPatternMatch rs s

/-- The result type of `extractTimeFromText`. -/
structure TimeExtractionResult where
  hasTime : Bool
  timeString : Option String
  reminderInfo : Option ReminderInfo
deriving DecidableEq, Repr

/-- `extractTimeFromText(text)` with the resolution moment of the inner
`parseReminderTime` call made explicit. -/
def extractTimeFromText (text : String) (now : Int) : TimeExtractionResult :=
  let input := text.toList.map Char.toLower
  match firstPatternMatch timePatterns input with
  | none => ⟨false, none, none⟩
  | some m => ⟨true, some (String.mk m), some (parseReminderTime (String.mk m) now)⟩


/-- `now` of the specification scenarios: Wednesday 2024-01-10 14:00. -/
def wedNow : Int := dtMs 2024 1 10 14 0

/-- The disjunction of the branch conditions of `resolveCoreI`, in source
order; the fallback fires exactly when none of them holds. -/
def dayMatched (input : List Char) : Bool :=
  containsL input "today".toList || containsL input "tonight".toList ||
  containsL input "tomorrow".toList || containsL input "next week".toList ||
  (containsL input "in an hour".toList || containsL input "in 1 hour".toList) ||
  (containsL input "in 30 minutes".toList || containsL input "in half an hour".toList) ||
  (matchInNHours input).isSome || (matchInNMinutes input).isSome ||
  containsL input "this weekend".toList ||
  (if containsL input "next".toList then (findNextDay input daysOfWeek).isSome
   else (findBareDay input daysOfWeek).isSome)

/-- No day-resolution branch matched: the resolver must fall back. -/
def fallbackCond (input : List Char) : Bool := !(dayMatched input)

/-! ## Helper lemmas -/

/-- `setDate(getDate() + k)` advances the calendar day number by `k`. -/
theorem dayOf_add_mul (t k : Int) : dayOf (t + k * msPerDay) = dayOf t + k := by
  unfold dayOf msPerDay
  omega

/-- A date on a strictly later calendar day is strictly in the future. -/
theorem dateAt_future (now k : Int) (h m : Nat) (hk : 1 ≤ k) :
    now < dateAt (dayOf now + k) h m := by
  unfold dateAt dayOf msPerDay msPerHour msPerMinute
  omega

/-- The rollover leaves results without `today`/`tonight` untouched. -/
theorem applyRollover_of_not_daynight (r : ReminderInfo) (input : List Char)
    (now : Int) (h1 : containsL input "today".toList = false)
    (h2 : containsL input "tonight".toList = false) :
    applyRollover r input now = r := by
  unfold applyRollover
  rcases r.date with _ | d
  · rfl
  · have h1' : containsL input ['t', 'o', 'd', 'a', 'y'] = false := h1
    have h2' : containsL input ['t', 'o', 'n', 'i', 'g', 'h', 't'] = false := h2
    simp [h1', h2']

/-- The rollover never changes the validity flag. -/
theorem applyRollover_isValid (r : ReminderInfo) (input : List Char) (now : Int) :
    (applyRollover r input now).isValid = r.isValid := by
  unfold applyRollover
  rcases r.date with _ | d
  · rfl
  · dsimp only
    split <;> rfl

/-- Evaluation of the shared date+time+label step on a valid time. -/
theorem finishResolve_eval (now k : Int) (h m : Nat) (label : String) (valid : Bool) :
    finishResolve now ⟨h, some m⟩ k label valid =
      ⟨some (dateAt (dayOf now + k) h m),
       label ++ " at " ++ clockText (some (dateAt (dayOf now + k) h m)) ⟨h, some m⟩,
       valid⟩ := by
  unfold finishResolve setHoursOnDay
  rw [dayOf_add_mul]

/-- Evaluation of the shared step on a `NaN` minutes value: Invalid Date. -/
theorem finishResolve_nan (now k : Int) (h : Nat) (label : String) (valid : Bool) :
    finishResolve now ⟨h, none⟩ k label valid =
      ⟨none, label ++ " at " ++ "Invalid Date", valid⟩ := by
  rfl

theorem clock_9_0 (q : Int) : clockText (some (dateAt q 9 0)) ⟨9, some 0⟩ = "9 AM" := by
  have hmd : dateAt q 9 0 % msPerDay = 9 * msPerHour := by
    unfold dateAt msPerDay msPerHour msPerMinute; omega
  simp only [clockText, fmtClock, hmd]
  decide

theorem clock_20_0 (q : Int) : clockText (some (dateAt q 20 0)) ⟨20, some 0⟩ = "8 PM" := by
  have hmd : dateAt q 20 0 % msPerDay = 20 * msPerHour := by
    unfold dateAt msPerDay msPerHour msPerMinute; omega
  simp only [clockText, fmtClock, hmd]
  decide

theorem clock_20_30 (q : Int) : clockText (some (dateAt q 20 30)) ⟨20, some 30⟩ = "8:30 PM" := by
  have hmd : dateAt q 20 30 % msPerDay = 20 * msPerHour + 30 * msPerMinute := by
    unfold dateAt msPerDay msPerHour msPerMinute; omega
  simp only [clockText, fmtClock, hmd]
  decide

theorem clock_19_30 (q : Int) : clockText (some (dateAt q 19 30)) ⟨19, some 30⟩ = "7:30 PM" := by
  have hmd : dateAt q 19 30 % msPerDay = 19 * msPerHour + 30 * msPerMinute := by
    unfold dateAt msPerDay msPerHour msPerMinute; omega
  simp only [clockText, fmtClock, hmd]
  decide

theorem clock_15_30 (q : Int) : clockText (some (dateAt q 15 30)) ⟨15, some 30⟩ = "3:30 PM" := by
  have hmd : dateAt q 15 30 % msPerDay = 15 * msPerHour + 30 * msPerMinute := by
    unfold dateAt msPerDay msPerHour msPerMinute; omega
  simp only [clockText, fmtClock, hmd]
  decide

/-- Anchor checks for the civil-date conversion. -/
example : daysFromCivil 1970 1 1 = 0 := by decide

example : daysFromCivil 2024 1 10 = 19732 := by decide

example : getDay wedNow = 3 := by decide

/-! ## Claims -/

/-- C1.  The spec's future invariant (`resolvedAt` strictly after `now`, or
at least not before it outside the duration short-circuits) is broken by the
code: for `"today at 3pm"` the bare `H am/pm` time pattern makes
`parseInt(match[2])` (= `parseInt("pm")`) `NaN`, `setHours` then yields an
Invalid Date, which is not after `now` (with `now` = Wednesday 2024-01-10
14:00). -/
theorem c1_future_invariant_broken :
    (parseReminderTime "today at 3pm" wedNow).date = none ∧
    ¬ ∃ t : Int, (parseReminderTime "today at 3pm" wedNow).date = some t ∧ wedNow < t := by
  refine ⟨by decide, ?_⟩
  rintro ⟨t, ht, -⟩
  rw [(by decide : (parseReminderTime "today at 3pm" wedNow).date = none)] at ht
  exact Option.noConfusion ht

/-- C3.  The spec scenario (`now` = Wednesday 2024-01-10 14:00, input
"remind me to call the dentist tomorrow at 3pm") does not produce
2024-01-11 15:00 with label "Tomorrow at 3:00 PM": the bare `3pm` match
makes the minutes `NaN`, so the code returns an Invalid Date and the label
"Tomorrow at Invalid Date" (the precision flag is `true` as claimed). -/
theorem c3_scenario_invalid_date :
    parseReminderTime "remind me to call the dentist tomorrow at 3pm" wedNow =
      ⟨none, "Tomorrow at Invalid Date", true⟩ ∧ getDay wedNow = 3 := by
  decide

/-- C10, the claim as stated is false: the day-of-month pattern's whole
match, not the bare number, becomes the `timeString` — for
`"call on the 15"` (a standalone two-digit number, no higher-priority
pattern matching) the extracted time string is `"on the 15"`, not
`"15"`. -/
theorem c10_counterexample :
    (extractTimeFromText "call on the 15" wedNow).timeString = some "on the 15" ∧
    (some "on the 15" : Option String) ≠ some "15" := by
  decide

/-- C10 (amended).  An input whose only time-like content is a standalone
one- or two-digit number is still classified as a time expression by the
day-of-month pattern, and the resolution is the imprecise fallback (next
day at 09:00, `isValid = false`); the `timeString` is the pattern's whole
match, which is the bare number itself only when the optional
`on `/`the ` prefixes are absent: "buy 2 apples" extracts `"2"`, while
"call on the 15" extracts `"on the 15"`. -/
theorem c10_day_number_amended (now : Int) :
    extractTimeFromText "buy 2 apples" now =
      ⟨true, some "2",
       some ⟨some (dateAt (dayOf now + 1) 9 0), "Tomorrow at 9 AM", false⟩⟩ ∧
    extractTimeFromText "call on the 15" now =
      ⟨true, some "on the 15",
       some ⟨some (dateAt (dayOf now + 1) 9 0), "Tomorrow at 9 AM", false⟩⟩ := by
  constructor
  · have h1 : extractTimeFromText "buy 2 apples" now =
        ⟨true, some "2", some (parseReminderTime "2" now)⟩ := rfl
    have h2 : parseReminderTime "2" now =
        finishResolve now ⟨9, some 0⟩ 1 "Tomorrow" false := by
      have hr := applyRollover_of_not_daynight
        (resolveCoreI (normalizeInput "2") now) (normalizeInput "2") now rfl rfl
      show applyRollover (resolveCoreI (normalizeInput "2") now) (normalizeInput "2") now = _
      rw [hr]
      rfl
    rw [h1, h2, finishResolve_eval, clock_9_0]
    rfl
  · have h1 : extractTimeFromText "call on the 15" now =
        ⟨true, some "on the 15", some (parseReminderTime "on the 15" now)⟩ := rfl
    have h2 : parseReminderTime "on the 15" now =
        finishResolve now ⟨9, some 0⟩ 1 "Tomorrow" false := by
      have hr := applyRollover_of_not_daynight
        (resolveCoreI (normalizeInput "on the 15") now) (normalizeInput "on the 15")
        now rfl rfl
      show applyRollover (resolveCoreI (normalizeInput "on the 15") now)
          (normalizeInput "on the 15") now = _
      rw [hr]
      rfl
    rw [h1, h2, finishResolve_eval, clock_9_0]
    rfl

/-- C9 (amended).  On "tomorrow at 3pm" only the clock-time substring
"at 3pm" is extracted (the surrounding day word does not influence the
result), and the inner resolution is the imprecise fallback; because of the
bare-am/pm minutes bug the date is an Invalid Date rather than the next day
at 15:00.  With a colon time ("tomorrow at 3:30pm") the extracted substring
is "at 3:30pm" and the fallback is the next day at that clock time,
`isValid = false`. -/
theorem c9_extraction_amended (now : Int) :
    extractTimeFromText "tomorrow at 3pm" now =
      ⟨true, some "at 3pm", some ⟨none, "Tomorrow at Invalid Date", false⟩⟩ ∧
    extractTimeFromText "tomorrow at 3:30pm" now =
      ⟨true, some "at 3:30pm",
       some ⟨some (dateAt (dayOf now + 1) 15 30), "Tomorrow at 3:30 PM", false⟩⟩ := by
  constructor
  · rfl
  · have h1 : extractTimeFromText "tomorrow at 3:30pm" now =
        ⟨true, some "at 3:30pm", some (parseReminderTime "at 3:30pm" now)⟩ := rfl
    have h2 : parseReminderTime "at 3:30pm" now =
        finishResolve now ⟨15, some 30⟩ 1 "Tomorrow" false := by
      have hr := applyRollover_of_not_daynight
        (resolveCoreI (normalizeInput "at 3:30pm") now) (normalizeInput "at 3:30pm")
        now rfl rfl
      show applyRollover (resolveCoreI (normalizeInput "at 3:30pm") now)
          (normalizeInput "at 3:30pm") now = _
      rw [hr]
      rfl
    rw [h1, h2, finishResolve_eval, clock_15_30]
    rfl

/-- C9, the claim as stated is false: the reminder produced from
"tomorrow at 3pm" does not carry the date 2024-01-11 15:00 (it carries an
Invalid Date). -/
theorem c9_counterexample :
    (extractTimeFromText "tomorrow at 3pm" wedNow).reminderInfo.bind
        ReminderInfo.date ≠ some (dtMs 2024 1 11 15 0) := by
  decide

/-- Evaluation of the rollover on a record literal with a valid date. -/
theorem applyRollover_eq (d : Int) (disp : String) (valid : Bool)
    (input : List Char) (now : Int) :
    applyRollover ⟨some d, disp, valid⟩ input now =
      if decide (d ≤ now) &&
          (containsL input "today".toList || containsL input "tonight".toList) then
        ⟨some (d + msPerDay),
         replaceFirst (replaceFirst disp "Today" "Tomorrow") "Tonight" "Tomorrow",
         valid⟩
      else ⟨some d, disp, valid⟩ := rfl

/-- A result strictly in the future is never rolled over. -/
theorem applyRollover_future (r : ReminderInfo) (input : List Char) (now d : Int)
    (hd : r.date = some d) (hlt : now < d) : applyRollover r input now = r := by
  obtain ⟨rd, rD, rV⟩ := r
  replace hd : rd = some d := hd
  subst hd
  rw [applyRollover_eq, decide_eq_false (not_le.mpr hlt)]
  rfl

/-- A `today`/`tonight` result not strictly in the future is moved forward by
exactly one day, with the label rewritten. -/
theorem applyRollover_past (r : ReminderInfo) (input : List Char) (now d : Int)
    (hd : r.date = some d) (hle : d ≤ now)
    (hor : containsL input "today".toList = true ∨
      containsL input "tonight".toList = true) :
    applyRollover r input now =
      ⟨some (d + msPerDay),
       replaceFirst (replaceFirst r.displayText "Today" "Tomorrow") "Tonight" "Tomorrow",
       r.isValid⟩ := by
  obtain ⟨rd, rD, rV⟩ := r
  replace hd : rd = some d := hd
  subst hd
  rcases hor with h | h
  · rw [applyRollover_eq, h, decide_eq_true hle]
    rfl
  · rw [applyRollover_eq, h, Bool.or_true, decide_eq_true hle]
    rfl

/-- C5.  The past-time rollover applies exactly to `today`/`tonight`
phrases: any other phrase's resolution is returned unchanged even when it
does not lie after `now`; a `today`/`tonight` resolution strictly after
`now` is kept; one at or before `now` is advanced by exactly one day with
the label rewritten `Today/Tonight → Tomorrow`. -/
theorem c5_rollover_scope (ts : String) (now : Int) :
    (containsL (normalizeInput ts) "today".toList = false →
      containsL (normalizeInput ts) "tonight".toList = false →
      parseReminderTime ts now = resolveCoreI (normalizeInput ts) now) ∧
    (∀ d : Int, (resolveCoreI (normalizeInput ts) now).date = some d → now < d →
      parseReminderTime ts now = resolveCoreI (normalizeInput ts) now) ∧
    (∀ d : Int, (resolveCoreI (normalizeInput ts) now).date = some d → d ≤ now →
      (containsL (normalizeInput ts) "today".toList = true ∨
       containsL (normalizeInput ts) "tonight".toList = true) →
      parseReminderTime ts now =
        ⟨some (d + msPerDay),
         replaceFirst (replaceFirst (resolveCoreI (normalizeInput ts) now).displayText
           "Today" "Tomorrow") "Tonight" "Tomorrow",
         (resolveCoreI (normalizeInput ts) now).isValid⟩) := by
  refine ⟨fun h1 h2 => ?_, fun d hd hlt => ?_, fun d hd hle hor => ?_⟩
  · exact applyRollover_of_not_daynight _ _ _ h1 h2
  · exact applyRollover_future _ _ _ _ hd hlt
  · exact applyRollover_past _ _ _ _ hd hle hor

/-- Witness for C5: at `now` = Wednesday 2024-01-10 14:00, `"friday"` (no
`today`/`tonight`) is returned unchanged, and `"today"` (whose 09:00
resolution has already passed) is advanced by exactly one day. -/
theorem c5_rollover_scope_witness :
    parseReminderTime "friday" wedNow = resolveCoreI (normalizeInput "friday") wedNow ∧
    parseReminderTime "today" wedNow =
      ⟨some (dtMs 2024 1 10 9 0 + msPerDay),
       replaceFirst (replaceFirst (resolveCoreI (normalizeInput "today") wedNow).displayText
         "Today" "Tomorrow") "Tonight" "Tomorrow",
       (resolveCoreI (normalizeInput "today") wedNow).isValid⟩ :=
  ⟨(c5_rollover_scope "friday" wedNow).1 (by decide) (by decide),
   (c5_rollover_scope "today" wedNow).2.2 (dtMs 2024 1 10 9 0) (by decide) (by decide)
     (Or.inl (by decide))⟩

/-- C2, the claim as stated is false: `"tonight at 5:30pm"` carries an
explicit clock time (17:30), yet the resolver does not keep it — at
Wednesday 2024-01-10 14:00 it resolves to 20:30, not 17:30. -/
theorem c2_counterexample :
    (parseReminderTime "tonight at 5:30pm" wedNow).date = some (dtMs 2024 1 10 20 30) ∧
    dtMs 2024 1 10 20 30 ≠ dtMs 2024 1 10 17 30 := by
  decide

/-- Rollover of a valid `today`/`tonight` result, as a single conditional. -/
theorem rollCase (now d : Int) (disp : String) (valid : Bool) (input : List Char)
    (hin : containsL input "tonight".toList = true ∨
      containsL input "today".toList = true) :
    applyRollover ⟨some d, disp, valid⟩ input now =
      if d ≤ now then
        ⟨some (d + msPerDay),
         replaceFirst (replaceFirst disp "Today" "Tomorrow") "Tonight" "Tomorrow",
         valid⟩
      else ⟨some d, disp, valid⟩ := by
  rw [applyRollover_eq]
  rcases hin with h | h
  · rw [h, Bool.or_true]
    by_cases hle : d ≤ now
    · rw [decide_eq_true hle, if_pos hle]
      rfl
    · rw [decide_eq_false hle, if_neg hle]
      rfl
  · rw [h]
    by_cases hle : d ≤ now
    · rw [decide_eq_true hle, if_pos hle]
      rfl
    · rw [decide_eq_false hle, if_neg hle]
      rfl

/-- C2 (amended).  For `tonight` phrases the 20:00 override applies exactly
when the extracted-or-default hour is below 18 — not only when no explicit
time was found: `"tonight"` (default 9:00) resolves to 20:00, an explicit
`"tonight at 5:30pm"` (17:30) is also overridden to 20:30 (the minutes are
kept), while an explicit `"tonight at 7:30pm"` (19:30, hour ≥ 18) is kept;
in each case the same-day result rolls to the next day when it has already
passed `now`. -/
theorem c2_tonight_amended (now : Int) :
    (parseReminderTime "tonight" now =
      if dateAt (dayOf now) 20 0 ≤ now then
        ⟨some (dateAt (dayOf now) 20 0 + msPerDay), "Tomorrow at 8 PM", true⟩
      else ⟨some (dateAt (dayOf now) 20 0), "Tonight at 8 PM", true⟩) ∧
    (parseReminderTime "tonight at 5:30pm" now =
      if dateAt (dayOf now) 20 30 ≤ now then
        ⟨some (dateAt (dayOf now) 20 30 + msPerDay), "Tomorrow at 8:30 PM", true⟩
      else ⟨some (dateAt (dayOf now) 20 30), "Tonight at 8:30 PM", true⟩) ∧
    (parseReminderTime "tonight at 7:30pm" now =
      if dateAt (dayOf now) 19 30 ≤ now then
        ⟨some (dateAt (dayOf now) 19 30 + msPerDay), "Tomorrow at 7:30 PM", true⟩
      else ⟨some (dateAt (dayOf now) 19 30), "Tonight at 7:30 PM", true⟩) := by
  refine ⟨?_, ?_, ?_⟩
  · have h2 : parseReminderTime "tonight" now =
        applyRollover (finishResolve now ⟨20, some 0⟩ 0 "Tonight" true)
          (normalizeInput "tonight") now := rfl
    rw [h2, finishResolve_eval, clock_20_0, add_zero,
        rollCase now (dateAt (dayOf now) 20 0) ("Tonight" ++ " at " ++ "8 PM") true
          (normalizeInput "tonight") (Or.inl rfl)]
    by_cases hle : dateAt (dayOf now) 20 0 ≤ now
    · rw [if_pos hle, if_pos hle]
      rfl
    · rw [if_neg hle, if_neg hle]
      rfl
  · have h2 : parseReminderTime "tonight at 5:30pm" now =
        applyRollover (finishResolve now ⟨20, some 30⟩ 0 "Tonight" true)
          (normalizeInput "tonight at 5:30pm") now := rfl
    rw [h2, finishResolve_eval, clock_20_30, add_zero,
        rollCase now (dateAt (dayOf now) 20 30) ("Tonight" ++ " at " ++ "8:30 PM") true
          (normalizeInput "tonight at 5:30pm") (Or.inl rfl)]
    by_cases hle : dateAt (dayOf now) 20 30 ≤ now
    · rw [if_pos hle, if_pos hle]
      rfl
    · rw [if_neg hle, if_neg hle]
      rfl
  · have h2 : parseReminderTime "tonight at 7:30pm" now =
        applyRollover (finishResolve now ⟨19, some 30⟩ 0 "Tonight" true)
          (normalizeInput "tonight at 7:30pm") now := rfl
    rw [h2, finishResolve_eval, clock_19_30, add_zero,
        rollCase now (dateAt (dayOf now) 19 30) ("Tonight" ++ " at " ++ "7:30 PM") true
          (normalizeInput "tonight at 7:30pm") (Or.inl rfl)]
    by_cases hle : dateAt (dayOf now) 19 30 ≤ now
    · rw [if_pos hle, if_pos hle]
      rfl
    · rw [if_neg hle, if_neg hle]
      rfl

/-- C4, the claim as stated is false: `"today in 30 minutes"` contains the
substring "in 30 minutes", but the `today` branch has higher precedence, so
at Wednesday 2024-01-10 14:00 the result is 2024-01-11 09:00 (rolled-over
today at the default 9:00), not `now + 30` minutes. -/
theorem c4_counterexample :
    parseReminderTime "today in 30 minutes" wedNow =
      ⟨some (dtMs 2024 1 11 9 0), "Tomorrow at 9 AM", true⟩ ∧
    dtMs 2024 1 11 9 0 ≠ wedNow + 30 * msPerMinute := by
  decide

/-- C4 (amended).  The `in 30 minutes` short-circuit yields `now + 30`
minutes with label "In 30 minutes" and `isValid = true` for any surrounding
text that does not trigger one of the five earlier branches (`today`,
`tonight`, `tomorrow`, `next week`, `in an hour`/`in 1 hour`). -/
theorem c4_duration_amended (ts : String) (now : Int)
    (h30 : containsL (normalizeInput ts) "in 30 minutes".toList = true)
    (htoday : containsL (normalizeInput ts) "today".toList = false)
    (htonight : containsL (normalizeInput ts) "tonight".toList = false)
    (htom : containsL (normalizeInput ts) "tomorrow".toList = false)
    (hnw : containsL (normalizeInput ts) "next week".toList = false)
    (hiah : containsL (normalizeInput ts) "in an hour".toList = false)
    (hi1h : containsL (normalizeInput ts) "in 1 hour".toList = false) :
    parseReminderTime ts now = ⟨some (now + 30 * msPerMinute), "In 30 minutes", true⟩ := by
  have hcore : resolveCoreI (normalizeInput ts) now =
      ⟨some (now + 30 * msPerMinute), "In 30 minutes", true⟩ := by
    unfold resolveCoreI
    rw [htoday, htonight, htom, hnw, hiah, hi1h, h30]
    rfl
  have hr := applyRollover_of_not_daynight
    (resolveCoreI (normalizeInput ts) now) (normalizeInput ts) now htoday htonight
  show applyRollover (resolveCoreI (normalizeInput ts) now) (normalizeInput ts) now = _
  rw [hr, hcore]

/-- Witness for C4 (amended): the plain phrase `"in 30 minutes"` satisfies
all the hypotheses at `now` = Wednesday 2024-01-10 14:00. -/
theorem c4_duration_amended_witness :
    parseReminderTime "in 30 minutes" wedNow =
      ⟨some (wedNow + 30 * msPerMinute), "In 30 minutes", true⟩ :=
  c4_duration_amended "in 30 minutes" wedNow (by decide) (by decide) (by decide)
    (by decide) (by decide) (by decide) (by decide)

/-- C7.  "this weekend" advances to the next Saturday by
`(6 - now.getDay() + 7) % 7` days, with 7 substituted for 0, so it never
resolves to the current day; at 09:00 and with the precision flag true.  In
the spec scenario (`now` = Saturday 2024-01-13 10:00) it resolves to the
following Saturday 2024-01-20 09:00. -/
theorem c7_this_weekend (now : Int) :
    parseReminderTime "this weekend" now =
      ⟨some (dateAt (dayOf now + wkOffset now) 9 0), "This weekend at 9 AM", true⟩ ∧
    wkOffset now =
      (if (6 - getDay now + 7) % 7 = 0 then 7 else (6 - getDay now + 7) % 7) ∧
    1 ≤ wkOffset now ∧
    parseReminderTime "this weekend" (dtMs 2024 1 13 10 0) =
      ⟨some (dtMs 2024 1 20 9 0), "This weekend at 9 AM", true⟩ := by
  refine ⟨?_, rfl, ?_, by decide⟩
  · have h2 : parseReminderTime "this weekend" now =
        applyRollover (finishResolve now ⟨9, some 0⟩ (wkOffset now) "This weekend" true)
          (normalizeInput "this weekend") now := rfl
    rw [h2, applyRollover_of_not_daynight _ (normalizeInput "this weekend") now rfl rfl,
        finishResolve_eval, clock_9_0]
    rfl
  · show 1 ≤ (if (6 - getDay now + 7) % 7 = 0 then 7 else (6 - getDay now + 7) % 7)
    unfold getDay dayOf
    split <;> omega

/-- C6.  Weekday arithmetic: a bare weekday name advances by
`(targetDow - now.getDay() + 7) % 7` days with 7 substituted for 0 (never
today), and `next <weekday>` adds another 7 days on top; for a Wednesday
`now`, "Friday" resolves two days later and "next Friday" nine days
later. -/
theorem c6_weekday_arithmetic (now : Int) :
    (parseReminderTime "Friday" now).date =
      some (dateAt (dayOf now + bareOffset now 5) 9 0) ∧
    (parseReminderTime "next Friday" now).date =
      some (dateAt (dayOf now + (bareOffset now 5 + 7)) 9 0) ∧
    bareOffset now 5 =
      (if ((5 : Nat) - getDay now + 7) % 7 = 0 then 7
       else ((5 : Nat) - getDay now + 7) % 7) ∧
    (getDay now = 3 →
      (parseReminderTime "Friday" now).date = some (dateAt (dayOf now + 2) 9 0) ∧
      (parseReminderTime "next Friday" now).date = some (dateAt (dayOf now + 9) 9 0)) := by
  have h1 : (parseReminderTime "Friday" now).date =
      some (dateAt (dayOf now + bareOffset now 5) 9 0) := by
    have h2 : parseReminderTime "Friday" now =
        applyRollover (finishResolve now ⟨9, some 0⟩ (bareOffset now 5) "Friday" true)
          (normalizeInput "Friday") now := rfl
    rw [h2, applyRollover_of_not_daynight _ (normalizeInput "Friday") now rfl rfl,
        finishResolve_eval]
  have h2 : (parseReminderTime "next Friday" now).date =
      some (dateAt (dayOf now + (bareOffset now 5 + 7)) 9 0) := by
    have h3 : parseReminderTime "next Friday" now =
        applyRollover (finishResolve now ⟨9, some 0⟩ (nextOffset now 5) "Next Friday" true)
          (normalizeInput "next Friday") now := rfl
    rw [h3, applyRollover_of_not_daynight _ (normalizeInput "next Friday") now rfl rfl,
        finishResolve_eval]
    rfl
  refine ⟨h1, h2, rfl, fun hg => ?_⟩
  have hb : bareOffset now 5 = 2 := by
    unfold bareOffset
    rw [hg]
    decide
  constructor
  · rw [h1, hb]
  · rw [h2, hb]
    norm_num

/-- Witness for C6 at the concrete Wednesday 2024-01-10 14:00. -/
theorem c6_weekday_arithmetic_witness :
    getDay wedNow = 3 ∧
    (parseReminderTime "Friday" wedNow).date = some (dateAt (dayOf wedNow + 2) 9 0) ∧
    (parseReminderTime "next Friday" wedNow).date =
      some (dateAt (dayOf wedNow + 9) 9 0) :=
  ⟨by decide, ((c6_weekday_arithmetic wedNow).2.2.2 (by decide)).1,
   ((c6_weekday_arithmetic wedNow).2.2.2 (by decide)).2⟩

/-- The validity flag of the branch cascade is exactly "some day-resolution
branch matched". -/
theorem resolveCore_isValid (input : List Char) (now : Int) :
    (resolveCoreI input now).isValid = dayMatched input := by
  unfold resolveCoreI dayMatched
  cases h1 : containsL input "today".toList
  case true => rfl
  case false =>
  cases h2 : containsL input "tonight".toList
  case true => rfl
  case false =>
  cases h3 : containsL input "tomorrow".toList
  case true => rfl
  case false =>
  cases h4 : containsL input "next week".toList
  case true => rfl
  case false =>
  cases h5 : containsL input "in an hour".toList
  case true => rfl
  case false =>
  cases h6 : containsL input "in 1 hour".toList
  case true => rfl
  case false =>
  cases h7 : containsL input "in 30 minutes".toList
  case true => rfl
  case false =>
  cases h8 : containsL input "in half an hour".toList
  case true => rfl
  case false =>
  cases h9 : matchInNHours input
  case some n => rfl
  case none =>
  cases h10 : matchInNMinutes input
  case some n => rfl
  case none =>
  cases h11 : containsL input "this weekend".toList
  case true => rfl
  case false =>
  cases h12 : containsL input "next".toList
  case true =>
    cases h13 : findNextDay input daysOfWeek
    case some p =>
      obtain ⟨dname, dn⟩ := p
      rfl
    case none => rfl
  case false =>
  cases h14 : findBareDay input daysOfWeek
  case some p =>
    obtain ⟨dname, dn⟩ := p
    rfl
  case none => rfl

/-- C8, the claim as stated is false: the fallback path applies the
extracted clock time, not always the default 09:00 — `"at 5:30pm"` (no day
pattern) yields `isValid = false` with next day 17:30, not 09:00. -/
theorem c8_counterexample :
    (parseReminderTime "at 5:30pm" wedNow).isValid = false ∧
    (parseReminderTime "at 5:30pm" wedNow).date = some (dtMs 2024 1 11 17 30) ∧
    dtMs 2024 1 11 17 30 ≠ dtMs 2024 1 11 9 0 := by
  decide

/-- C8 (amended).  The precision flag is `false` exactly when no
day-resolution branch matched (the fallback path, which adds one day and
applies the extracted-or-default time); every matched branch, including the
duration short-circuits, returns `isValid = true`. -/
theorem c8_fallback_amended (ts : String) (now : Int) :
    (parseReminderTime ts now).isValid = false ↔
      fallbackCond (normalizeInput ts) = true := by
  rw [show (parseReminderTime ts now).isValid
      = (resolveCoreI (normalizeInput ts) now).isValid from
      applyRollover_isValid _ _ _]
  rw [resolveCore_isValid]
  unfold fallbackCond
  cases dayMatched (normalizeInput ts) <;> simp
